import Mathlib

/-!
Verification of the rudder DDNS service: a shallow embedding of the
field extractors (rudder-extractors), the Cloudflare response envelope
(rudder-http-client), and the reconciliation loop (rudder-cli), with
theorems settling the specification claims.

Conventions: Rust strings are Lean `String`, byte buffers are `List Nat`
(one entry per byte), machine integers are `Nat` (no arithmetic here ever
overflows), fallible Rust code returning `Result` is `Except`, and the
HTTP rejection type `(StatusCode, String)` is `Nat × String`.
-/

namespace Rudder

/-- ASCII lowercase of a single character, models `u8::to_ascii_lowercase`
as used by `eq_ignore_ascii_case` and HTTP header-name normalization. -/
def asciiLower (c : Char) : Char :=
  if 65 ≤ c.toNat ∧ c.toNat ≤ 90 then Char.ofNat (c.toNat + 32) else c

/-- ASCII lowercase of a string. -/
def lowerStr (s : String) : String :=
  String.mk (s.data.map asciiLower)

/-- Models `str::eq_ignore_ascii_case` (the inputs here are ASCII). -/
def eqIgnoreCase (a b : String) : Bool :=
  lowerStr a == lowerStr b

/-- Whitespace recognized by `str::trim` (restricted to the ASCII
whitespace actually occurring in HTTP values). -/
def isWsChar (c : Char) : Bool :=
  c.toNat = 32 || c.toNat = 9 || c.toNat = 10 || c.toNat = 13

/-- Models `str::trim_start`. -/
def trimLeftChars (s : List Char) : List Char :=
  s.dropWhile isWsChar

/-- Models `str::trim` (both ends). -/
def trimChars (s : List Char) : List Char :=
  ((s.dropWhile isWsChar).reverse.dropWhile isWsChar).reverse

/-- Models `str::trim` on `String`. -/
def trimStr (s : String) : String :=
  String.mk (trimChars s.data)

/-- Models `str::strip_prefix` at the character-list level: `dropLit p s`
is `some rest` iff `s = p ++ rest`. -/
def dropLit : List Char → List Char → Option (List Char)
  | [], s => some s
  | _ :: _, [] => none
  | p :: ps, c :: cs => if p = c then dropLit ps cs else none

/-- Splits a character list on a separator; models `str::split`.
`splitChar sep s` always returns at least one (possibly empty) group. -/
def splitChar (sep : Char) (s : List Char) : List (List Char) :=
  s.foldr
    (fun c acc =>
      match acc with
      | [] => [[c]]
      | g :: gs => if c = sep then [] :: g :: gs else (c :: g) :: gs)
    [[]]

/-- Models `str::split_once`: splits at the first occurrence of `sep`. -/
def splitOnce (sep : Char) : List Char → Option (List Char × List Char)
  | [] => none
  | c :: cs =>
    if c = sep then some ([], cs)
    else (splitOnce sep cs).map (fun p => (c :: p.1, p.2))

/-! ## IP addresses

Models `std::net::IpAddr` with its `FromStr` parser and `Display`
formatter, as used by `value.parse()` and `ip.to_string()` in the source.
The v4 side is modelled faithfully (dotted quad, 0-255, no leading
zeros); the v6 side is modelled in full 8-group form without `::`
compression, which is all the development relies on. -/

inductive IpAddr where
  | v4 (a b c d : Nat)
  | v6 (a b c d e f g h : Nat)
deriving DecidableEq

/-- Decimal value of a digit list (digits already validated). -/
def digitsVal (l : List Char) : Nat :=
  l.foldl (fun acc c => acc * 10 + (c.toNat - 48)) 0

/-- Models parsing one IPv4 octet: 1-3 digits, no leading zero, ≤ 255. -/
def parseOctet (l : List Char) : Option Nat :=
  if l ≠ [] ∧ l.length ≤ 3 ∧ l.all Char.isDigit ∧ (l.head? = some '0' → l = ['0']) then
    if digitsVal l ≤ 255 then some (digitsVal l) else none
  else none

/-- Models `Ipv4Addr::from_str`: four octets separated by dots. -/
def parseIpv4 (l : List Char) : Option IpAddr :=
  match splitChar '.' l with
  | [a, b, c, d] =>
    match parseOctet a, parseOctet b, parseOctet c, parseOctet d with
    | some x, some y, some z, some w => some (.v4 x y z w)
    | _, _, _, _ => none
  | _ => none

/-- Value of one hex digit. -/
def hexVal (c : Char) : Option Nat :=
  if 48 ≤ c.toNat ∧ c.toNat ≤ 57 then some (c.toNat - 48)
  else if 97 ≤ c.toNat ∧ c.toNat ≤ 102 then some (c.toNat - 87)
  else if 65 ≤ c.toNat ∧ c.toNat ≤ 70 then some (c.toNat - 55)
  else none

/-- Models parsing one IPv6 group: 1-4 hex digits. -/
def parseHexGroup (l : List Char) : Option Nat :=
  if l ≠ [] ∧ l.length ≤ 4 then
    l.foldl (fun acc c => acc.bind (fun a => (hexVal c).map (fun v => a * 16 + v))) (some 0)
  else none

/-- Models `Ipv6Addr::from_str` restricted to the uncompressed 8-group
form. -/
def parseIpv6 (l : List Char) : Option IpAddr :=
  match (splitChar ':' l).mapM parseHexGroup with
  | some [a, b, c, d, e, f, g, h] => some (.v6 a b c d e f g h)
  | _ => none

/-- Models `str::parse::<IpAddr>()`: try v4, then v6. -/
def stdParseIp (s : String) : Option IpAddr :=
  match parseIpv4 s.data with
  | some a => some a
  | none => parseIpv6 s.data

/-- Lowercase hex digit character. -/
def hexDigit (n : Nat) : Char :=
  if n < 10 then Char.ofNat (48 + n) else Char.ofNat (87 + n)

/-- Hex digits of `n`, most significant first (`fuel` bounds the digit
count; 5 digits cover every 16-bit group). -/
def hexCore : Nat → Nat → List Char
  | 0, _ => []
  | fuel + 1, n => if n = 0 then [] else hexCore fuel (n / 16) ++ [hexDigit (n % 16)]

/-- Hex rendering of one IPv6 group. -/
def hexStr (n : Nat) : String :=
  if n = 0 then "0" else String.mk (hexCore 5 n)

/-- Models `IpAddr`'s `Display` (`ip.to_string()` in the source); v6 is
rendered in uncompressed form. -/
def ipToString : IpAddr → String
  | .v4 a b c d =>
    Nat.repr a ++ "." ++ Nat.repr b ++ "." ++ Nat.repr c ++ "." ++ Nat.repr d
  | .v6 a b c d e f g h =>
    hexStr a ++ ":" ++ hexStr b ++ ":" ++ hexStr c ++ ":" ++ hexStr d ++ ":" ++
    hexStr e ++ ":" ++ hexStr f ++ ":" ++ hexStr g ++ ":" ++ hexStr h

/-! ## Request parts

Query parameters are modelled as an association list of decoded UTF-8
strings (what axum's `Query<HashMap<String, String>>` yields); header
values are raw byte lists, and header-name lookup is ASCII
case-insensitive, matching `http::HeaderMap`. -/

abbrev HeaderBytes := List Nat

abbrev Headers := List (String × HeaderBytes)

abbrev QueryParams := List (String × String)

/-- Models `HeaderMap::get`: first value stored under the
case-insensitive name. -/
def headerGet (hs : Headers) (name : String) : Option HeaderBytes :=
  (hs.find? (fun h => lowerStr h.1 == lowerStr name)).map Prod.snd

/-- Models `HashMap::get` on the decoded query parameters (query keys
are matched exactly, case-sensitively). -/
def queryGet (q : QueryParams) (name : String) : Option String :=
  (q.find? (fun kv => kv.1 == name)).map Prod.snd

/-- Is this byte visible ASCII (or tab)? The check performed by
`http::HeaderValue::to_str`. -/
def isVisibleAscii (b : Nat) : Bool :=
  b == 9 || (32 ≤ b && b ≤ 126)

/-- Bytes to a string, one char per byte (only used on visible ASCII). -/
def bytesToStr (bs : List Nat) : String :=
  String.mk (bs.map Char.ofNat)

/-- The bytes of an ASCII string. -/
def asciiBytes (s : String) : List Nat :=
  s.data.map Char.toNat

/-- From src/crates/rudder-extractors/src/ip_variant.rs,
`fn header_str`: convert a header value to a string, or reject with 400.
The same conversion (with the same message) is inlined in hostname.rs. -/
def headerStr (headerName : String) (bs : HeaderBytes) : Except (Nat × String) String :=
  if bs.all isVisibleAscii then .ok (bytesToStr bs)
  else .error (400, "invalid UTF8 in header \x27" ++ headerName ++
    "\x27: failed to convert header to a str")

/-- Models the `for name in NAMES { if let Some(value) = params.get(name) }`
loops: the first listed query-parameter name present, with its value. -/
def firstQuery (names : List String) (q : QueryParams) : Option (String × String) :=
  names.findSome? (fun p => (queryGet q p).map (fun v => (p, v)))

/-- Models the header loops: the first listed header name present, with
its raw value. -/
def firstHeader (names : List String) (hs : Headers) : Option (String × HeaderBytes) :=
  names.findSome? (fun n => (headerGet hs n).map (fun v => (n, v)))

/-! ## Hostname extraction (src/crates/rudder-extractors/src/hostname.rs) -/

/-- From hostname.rs: `HOSTNAME_QUERY_PARAMS`. -/
def HOSTNAME_QUERY_PARAMS : List String :=
  ["hostname", "Hostname", "targethostname", "target-hostname",
   "target_hostname", "targetHostname", "TargetHostname"]

/-- From hostname.rs: `HOSTNAME_HEADERS`. -/
def HOSTNAME_HEADERS : List String :=
  ["x-hostname", "x-targethostname", "x-target-hostname"]

/-- One iteration bound for the scheme-stripping loop: strip a leading
`http://` or `https://` and keep stripping. Each successful strip removes
at least seven characters, so the fuel supplied by `stripHttpScheme`
(`length + 1`) is never exhausted and the function agrees with the
unbounded Rust loop. -/
def stripSchemesAux : Nat → List Char → List Char
  | 0, s => s
  | fuel + 1, s =>
    match dropLit ("http://".data) s with
    | some rest => stripSchemesAux fuel (trimLeftChars rest)
    | none =>
      match dropLit ("https://".data) s with
      | some rest => stripSchemesAux fuel (trimLeftChars rest)
      | none => s

/-- From hostname.rs, `fn trim_http_prefix`: trim, then repeatedly strip
a leading scheme and trim again. -/
def stripHttpScheme (s : String) : String :=
  String.mk (stripSchemesAux (s.length + 1) (trimChars s.data))

/-- Is this character acceptable in an ASCII DNS label (letters mapped
to lowercase, digits, hyphen)? -/
def isHostChar (c : Char) : Bool :=
  (97 ≤ c.toNat && c.toNat ≤ 122) || (48 ≤ c.toNat && c.toNat ≤ 57) || c.toNat = 45

/-- One DNS label: nonempty, at most 63 chars, host chars only. -/
def validLabel (l : List Char) : Bool :=
  decide (l ≠ []) && l.length ≤ 63 && l.all isHostChar

/-- Modelled from the external idna crate (`Uts46::to_ascii` with
`AsciiDenyList::URL`, `Hyphens::Allow`, `DnsLength::VerifyAllowRootDot`),
which is not part of this repository: ASCII-lowercase the input, split
into dot-separated labels (tolerating one trailing root dot), and accept
when every label is valid and the DNS length bound holds, returning the
normalized (lowercased) name. -/
def toAsciiHost (s : String) : Option String :=
  let low := s.data.map asciiLower
  let labels := splitChar '.' low
  let checkLabels := match labels.reverse with
    | [] :: rest => rest.reverse
    | _ => labels
  if checkLabels ≠ [] ∧ checkLabels.all validLabel ∧ low.length ≤ 254 then
    some (String.mk low)
  else none

/-- From hostname.rs, `impl FromStr for Hostname`: strip schemes, then
validate via idna. The validated `Hostname` is represented by its inner
normalized string. -/
def hostnameFromStr (s : String) : Option String :=
  toAsciiHost (stripHttpScheme s)

/-- From hostname.rs, `fn parse_hostname`. -/
def parseHostname (kind name value : String) : Except (Nat × String) String :=
  let v := stripHttpScheme value
  if v = "" then
    .error (400, "invalid hostname provided in " ++ kind ++ " \x27" ++ name ++
      "\x27: hostname is empty")
  else
    match hostnameFromStr v with
    | some h => .ok h
    | none => .error (400, "invalid hostname in " ++ kind ++ " \x27" ++ name ++
        "\x27: idna errors")

/-- Success condition of `parseHostname`, independent of the reporting
source: schemes stripped, nonempty, idna-valid. -/
def hostnameOk (value : String) : Option String :=
  let v := stripHttpScheme value
  if v = "" then none else hostnameFromStr v

/-- From hostname.rs, `Hostname::from_request_parts`: first matching
query parameter, else first matching header, else 400. -/
def hostnameFromRequestParts (q : QueryParams) (hs : Headers) :
    Except (Nat × String) String :=
  match firstQuery HOSTNAME_QUERY_PARAMS q with
  | some (p, v) => parseHostname "query parameter" p v
  | none =>
    match firstHeader HOSTNAME_HEADERS hs with
    | some (n, bs) => (headerStr n bs).bind (fun v => parseHostname "header" n v)
    | none => .error (400, "no hostname found in query parameters or headers")

/-! ## Address-intent extraction (src/crates/rudder-extractors/src/ip_variant.rs) -/

/-- From ip_variant.rs: `IP_QUERY_PARAMS`. -/
def IP_QUERY_PARAMS : List String :=
  ["ip", "Ip", "myip", "my_ip", "myIp", "MyIp", "targetip", "target-ip",
   "target_ip", "targetIp", "TargetIp"]

/-- From ip_variant.rs: `IP_HEADERS`. -/
def IP_HEADERS : List String :=
  ["x-ip", "x-myip", "x-my-ip", "x-targetip", "x-target-ip"]

/-- From ip_variant.rs: `enum IpVariant`. -/
inductive IpVariant where
  | ip (a : IpAddr)
  | auto (a : IpAddr)
  | fetch
deriving DecidableEq

/-- From ip_variant.rs, `fn parse_ip`: trim, reject empty, parse. -/
def parseIpValue (kind name value : String) : Except (Nat × String) IpAddr :=
  let v := trimStr value
  if v = "" then
    .error (400, "empty IP address in " ++ kind ++ " \x27" ++ name ++ "\x27")
  else
    match stdParseIp v with
    | some a => .ok a
    | none => .error (400, "invalid IP address in " ++ kind ++ " \x27" ++ name ++
        "\x27: invalid IP address syntax")

/-- Models `value.split_once(',').map_or(value, |s| s.0)`: the text
before the first comma, or the whole value when there is none. -/
def firstForwarded (s : String) : String :=
  match splitOnce ',' s.data with
  | some p => String.mk p.1
  | none => s

/-- From ip_variant.rs, `fn parse_ip_variant`: interpret the found value
as `fetch`, `auto` (resolved through the `CF-Connecting-Ip`, `X-Real-Ip`,
`X-Forwarded-For` chain), or a literal address. -/
def parseIpVariant (hs : Headers) (kind name value : String) :
    Except (Nat × String) IpVariant :=
  let v := trimStr value
  if eqIgnoreCase v "fetch" then .ok .fetch
  else if eqIgnoreCase v "auto" then
    match headerGet hs "cf-connecting-ip" with
    | some bs =>
      (headerStr "cf-connecting-ip" bs).bind
        (fun s => (parseIpValue "header" "cf-connecting-ip" s).map .auto)
    | none =>
      match headerGet hs "x-real-ip" with
      | some bs =>
        (headerStr "x-real-ip" bs).bind
          (fun s => (parseIpValue "header" "x-real-ip" s).map .auto)
      | none =>
        match headerGet hs "x-forwarded-for" with
        | some bs =>
          (headerStr "x-forwarded-for" bs).bind
            (fun s => (parseIpValue "header" "x-forwarded-for" (firstForwarded s)).map .auto)
        | none =>
          .error (400, "\x27auto\x27 specified in " ++ kind ++ " \x27" ++ name ++
            "\x27, but no relevant IP headers were found")
  else (parseIpValue kind name v).map .ip

/-- From ip_variant.rs, `IpVariant::from_request_parts`. -/
def ipVariantFromRequestParts (q : QueryParams) (hs : Headers) :
    Except (Nat × String) IpVariant :=
  match firstQuery IP_QUERY_PARAMS q with
  | some (p, v) => parseIpVariant hs "query parameter" p v
  | none =>
    match firstHeader IP_HEADERS hs with
    | some (n, bs) => (headerStr n bs).bind (fun v => parseIpVariant hs "header" n v)
    | none => .error (400, "no IP address found in query parameters or headers")

/-! ## Basic-Auth extraction (src/crates/rudder-extractors/src/basic_auth.rs) -/

/-- Models `[u8]::strip_prefix` on byte lists. -/
def dropBytes : List Nat → List Nat → Option (List Nat)
  | [], s => some s
  | _ :: _, [] => none
  | p :: ps, c :: cs => if p = c then dropBytes ps cs else none

/-- Value of one standard-alphabet base64 character. -/
def b64Val (c : Nat) : Option Nat :=
  if 65 ≤ c ∧ c ≤ 90 then some (c - 65)
  else if 97 ≤ c ∧ c ≤ 122 then some (c - 71)
  else if 48 ≤ c ∧ c ≤ 57 then some (c + 4)
  else if c = 43 then some 62
  else if c = 47 then some 63
  else none

/-- Modelled from the external base64 crate (`BASE64_STANDARD.decode`,
not part of this repository): strict standard-alphabet decoding in
four-character blocks with mandatory canonical padding and rejection of
nonzero trailing bits. -/
def b64Decode : List Nat → Option (List Nat)
  | [] => some []
  | c1 :: c2 :: c3 :: c4 :: rest =>
    match b64Val c1, b64Val c2 with
    | some v1, some v2 =>
      if c3 = 61 then
        if c4 = 61 ∧ rest = [] ∧ v2 % 16 = 0 then some [v1 * 4 + v2 / 16] else none
      else
        match b64Val c3 with
        | some v3 =>
          if c4 = 61 then
            if rest = [] ∧ v3 % 4 = 0 then
              some [v1 * 4 + v2 / 16, v2 % 16 * 16 + v3 / 4]
            else none
          else
            match b64Val c4 with
            | some v4 =>
              (b64Decode rest).map
                (fun tail => (v1 * 4 + v2 / 16) :: (v2 % 16 * 16 + v3 / 4) ::
                  (v3 % 4 * 64 + v4) :: tail)
            | none => none
        | none => none
    | _, _ => none
  | _ => none

/-- Modelled from `String::from_utf8` of the Rust standard library (not
part of this repository): strict UTF-8 decoding rejecting overlong forms,
surrogates, and out-of-range code points. -/
def utf8Decode : List Nat → Option (List Char)
  | [] => some []
  | b1 :: rest =>
    if b1 < 128 then
      (utf8Decode rest).map (fun cs => Char.ofNat b1 :: cs)
    else if 194 ≤ b1 ∧ b1 ≤ 223 then
      match rest with
      | b2 :: rest2 =>
        if 128 ≤ b2 ∧ b2 ≤ 191 then
          (utf8Decode rest2).map (fun cs => Char.ofNat ((b1 - 192) * 64 + (b2 - 128)) :: cs)
        else none
      | _ => none
    else if 224 ≤ b1 ∧ b1 ≤ 239 then
      match rest with
      | b2 :: b3 :: rest3 =>
        let lo2 := if b1 = 224 then 160 else 128
        let hi2 := if b1 = 237 then 159 else 191
        if (lo2 ≤ b2 ∧ b2 ≤ hi2) ∧ (128 ≤ b3 ∧ b3 ≤ 191) then
          (utf8Decode rest3).map
            (fun cs => Char.ofNat ((b1 - 224) * 4096 + (b2 - 128) * 64 + (b3 - 128)) :: cs)
        else none
      | _ => none
    else if 240 ≤ b1 ∧ b1 ≤ 244 then
      match rest with
      | b2 :: b3 :: b4 :: rest4 =>
        let lo2 := if b1 = 240 then 144 else 128
        let hi2 := if b1 = 244 then 143 else 191
        if (lo2 ≤ b2 ∧ b2 ≤ hi2) ∧ (128 ≤ b3 ∧ b3 ≤ 191) ∧ (128 ≤ b4 ∧ b4 ≤ 191) then
          (utf8Decode rest4).map
            (fun cs => Char.ofNat ((b1 - 240) * 262144 + (b2 - 128) * 4096 +
              (b3 - 128) * 64 + (b4 - 128)) :: cs)
        else none
      | _ => none
    else none

/-- From basic_auth.rs, `BasicAuth::from_request_parts`: require the
`Authorization` header, the `Basic ` scheme, base64, UTF-8, and a `:`
separator; the generic `T::from((username, password))` target is
represented by the pair itself. -/
def basicAuthFromRequestParts (hs : Headers) :
    Except (Nat × String) (String × String) :=
  match headerGet hs "authorization" with
  | none => .error (401, "missing Authorization header")
  | some bytes =>
    match dropBytes (asciiBytes "Basic ") bytes with
    | none => .error (401, "invalid Authorization header: must start with \x27Basic \x27")
    | some contents =>
      match b64Decode contents with
      | none => .error (401, "invalid Authorization header: encountered invalid base64")
      | some decoded =>
        match utf8Decode decoded with
        | none => .error (401,
            "invalid Authorization header: invalid UTF-8 after decoding base64")
        | some text =>
          match splitOnce ':' text with
          | none => .error (401,
              "invalid Authorization header: missing \x27:\x27 separator after decoding base64")
          | some (u, p) => .ok (String.mk u, String.mk p)

/-! ## Cloudflare models (src/crates/rudder-http-client/src/models/cloudflare.rs) -/

/-- From models/cloudflare.rs: `enum CloudflareDnsRecordKind` (serde
`UPPERCASE`, default `A`). -/
inductive CloudflareDnsRecordKind where
  | A | AAAA | CAA | CERT | CNAME | DNSKEY | DS | HTTPS | LOC | MX | NAPTR
  | NS | OPENPGPKEY | PTR | SMIMEA | SRV | SSHFP | SVCB | TLSA | TXT | URI
deriving DecidableEq

/-- From models/cloudflare.rs, `impl From<IpAddr> for CloudflareDnsRecordKind`. -/
def kindOfIp : IpAddr → CloudflareDnsRecordKind
  | .v4 _ _ _ _ => .A
  | .v6 _ _ _ _ _ _ _ _ => .AAAA

/-- From models/cloudflare.rs: `struct CloudflareDnsRecord`. -/
structure CloudflareDnsRecord where
  id : String
  kind : CloudflareDnsRecordKind
  name : String
  content : String
  comment : Option String
  proxied : Bool
  ttl : Nat
deriving DecidableEq

/-- From models/cloudflare.rs, `fn default_ttl`. -/
def default_ttl : Nat := 3600

/-- From models/cloudflare.rs, `impl Default for CloudflareDnsRecord`. -/
def CloudflareDnsRecord.default : CloudflareDnsRecord :=
  { id := "", kind := .A, name := "", content := "", comment := none,
    proxied := false, ttl := default_ttl }

/-! ## Response envelope (src/crates/rudder-http-client/src/private/cloudflare.rs) -/

/-- From private/cloudflare.rs: `struct CloudflareResponseError`
(`code`, `message`, and a default-empty nested `error_chain`). -/
inductive CloudflareResponseError where
  | mk (code : Nat) (message : String) (chain : List CloudflareResponseError)

/-- The `code` field. -/
def CloudflareResponseError.code : CloudflareResponseError → Nat
  | .mk c _ _ => c

/-- The `message` field. -/
def CloudflareResponseError.message : CloudflareResponseError → String
  | .mk _ m _ => m

/-- The `error_chain` field. -/
def CloudflareResponseError.chain : CloudflareResponseError → List CloudflareResponseError
  | .mk _ _ ch => ch

/-- The context line contributed by one response error:
`code: <n>, message: <text>`. -/
def contextLine (e : CloudflareResponseError) : String :=
  "code: " ++ Nat.repr e.code ++ ", message: " ++ e.message

mutual

/-- From private/cloudflare.rs, `CloudflareResponseError::add_context`.
An `anyhow::Error` is modelled as the list of its context messages,
outermost first; `error.context(msg)` prepends `msg`. The source walks
`error_chain` in reverse, wrapping `err` with each entry in turn and
finally with this error's own context line (`contextLine` holds the
format string); iterating a list in reverse while rewrapping the
accumulator is exactly a right fold, expressed here by the mutual
`addContextChain`. -/
def addContext : CloudflareResponseError → List String → List String
  | e@(.mk _ _ chain), err => contextLine e :: addContextChain chain err

/-- The `for chained in self.error_chain.into_iter().rev()` loop of
`add_context`, as a right fold over the chain. -/
def addContextChain : List CloudflareResponseError → List String → List String
  | [], err => err
  | c :: cs, err => addContext c (addContextChain cs err)

end

/-- From private/cloudflare.rs: `enum CloudflareResponse<T>`. -/
inductive CloudflareResponse (T : Type) where
  | success (result : T)
  | error (errors : List CloudflareResponseError)

/-- From private/cloudflare.rs, `CloudflareResponse::into_result`: a
success yields its payload; a failure composes one diagnostic starting
from an innermost `cloudflare API error` marker, wrapping it with each
top-level error's contexts in order, and finally with an outermost
`cloudflare API error` marker. -/
def intoResult {T : Type} : CloudflareResponse T → Except (List String) T
  | .success result => .ok result
  | .error errors =>
    .error ("cloudflare API error" ::
      errors.foldl (fun acc e => addContext e acc) ["cloudflare API error"])

/-- The raw envelope shape decoded from the wire before dispatch, from
`struct CloudflareResponseRaw` in private/cloudflare.rs: a `success`
flag, an optional untyped `result` payload (of some wire type `J`), and
a default-empty `errors` list. -/
structure CloudflareResponseRaw (J : Type) where
  success : Bool
  result : Option J
  errors : List CloudflareResponseError

/-- From private/cloudflare.rs, `impl Deserialize for CloudflareResponse`
(the dispatch on the already-decoded raw envelope, lines 76-98). The
target-shape deserializer for `T` is the parameter `dec`, whose error
carries the failing field path and the underlying cause, as produced by
serde_path_to_error. -/
def deserializeFromRaw {J T : Type} (dec : J → Except (String × String) T)
    (raw : CloudflareResponseRaw J) : Except String (CloudflareResponse T) :=
  if raw.success then
    match raw.result with
    | some value =>
      match dec value with
      | .ok result => .ok (.success result)
      | .error (path, cause) =>
        .error ("failed to deserialize at \x27" ++ path ++ "\x27: " ++ cause)
    | none => .error "response was successful, but result is missing"
  else if raw.errors.isEmpty then
    .error "response was failure, but errors are missing"
  else .ok (.error raw.errors)

/-! ## Reconciliation (src/crates/rudder-cli/src/command/start/cloudflare.rs) -/

/-- The predicate of the `find` call in step 5a of `CloudflareCommand::run`:
`record.name == desired_name && record.kind == desired_kind`. -/
def desiredMatch (desiredName : String) (desiredKind : CloudflareDnsRecordKind)
    (r : CloudflareDnsRecord) : Bool :=
  r.name == desiredName && r.kind == desiredKind

/-- The three possible outcomes of one reconciliation pass: the explicit
no-op (`tracing::info!("No DNS record changes necessary")` followed by
`continue`), an update of an existing record, or a creation. -/
inductive ReconcileDecision where
  | noop
  | update (recordId : String) (record : CloudflareDnsRecord)
  | create (record : CloudflareDnsRecord)
deriving DecidableEq

/-- From `CloudflareCommand::run`, step 5 (the changed-IP branch): the
desired kind is derived from the address family, the first record
matching the desired name and kind decides between no-op, in-place
content update (preserving every other field), and creation with the
remaining fields defaulted (`..Default::default()`). -/
def reconcilePass (hostname : String) (ip : IpAddr)
    (records : List CloudflareDnsRecord) : ReconcileDecision :=
  let desiredKind := kindOfIp ip
  let desiredName := hostname
  match records.find? (desiredMatch desiredName desiredKind) with
  | some existing =>
    if existing.content == ipToString ip then .noop
    else .update existing.id { existing with content := ipToString ip }
  | none =>
    .create { CloudflareDnsRecord.default with
      kind := desiredKind, name := desiredName, content := ipToString ip }

/-- The provider operations exposed by the Cloudflare client
(src/crates/rudder-http-client/src/client/cloudflare.rs); the client has
no delete operation. -/
inductive ProviderCall where
  | verifyToken
  | listZones
  | listRecords (zoneId : String)
  | createRecord (zoneId : String) (record : CloudflareDnsRecord)
  | updateRecord (zoneId : String) (recordId : String) (record : CloudflareDnsRecord)
deriving DecidableEq

/-- The mutating provider calls performed by the branch of step 5b
selected by a reconcile decision: none for the no-op, exactly the one
`update_dns_record` or `create_dns_record` call otherwise. -/
def mutatingCalls (zoneId : String) : ReconcileDecision → List ProviderCall
  | .noop => []
  | .update recordId record => [.updateRecord zoneId recordId record]
  | .create record => [.createRecord zoneId record]

/-! ## The watch loop (src/crates/rudder-cli/src/command/start/cloudflare.rs)

One tick of the `loop` in `CloudflareCommand::run` is modelled as a
function of the environment's responses for that cycle; the `?` operator
on each fallible step is `Except` propagation carrying the
`.context(...)` message attached at that step. -/

/-- The external responses observed during one poll cycle: the uPnP
gateway search, the external-address lookup through the gateway, and the
provider's record listing / update / create results (`none` and `false`
are the failure cases). -/
structure CycleEnv where
  gatewayOk : Bool
  externalIp : Option IpAddr
  listRecords : Option (List CloudflareDnsRecord)
  updateOk : Bool
  createOk : Bool

/-- One iteration of the `loop` body (steps 4 and 5): returns the new
`last_ip` and the provider calls made, or propagates the first failure
with its context message, exactly as the `?` operators do. -/
def runCycle (zoneId hostname : String) (env : CycleEnv) (lastIp : Option IpAddr) :
    Except String (Option IpAddr × List ProviderCall) :=
  if env.gatewayOk = false then
    .error "failed to find gateway / router through uPnP"
  else
    match env.externalIp with
    | none => .error "failed to get external ip through gateway"
    | some ip =>
      if lastIp.all (fun last => ip != last) then
        match env.listRecords with
        | none => .error "failed to fetch current dns records"
        | some records =>
          match reconcilePass hostname ip records with
          | .noop => .ok (some ip, [.listRecords zoneId])
          | .update recordId record =>
            if env.updateOk then
              .ok (some ip, [.listRecords zoneId, .updateRecord zoneId recordId record])
            else .error "failed to update dns record"
          | .create record =>
            if env.createOk then
              .ok (some ip, [.listRecords zoneId, .createRecord zoneId record])
            else .error "failed to create dns record"
      else .ok (lastIp, [])

/-- The `loop` of `CloudflareCommand::run` restricted to a finite
schedule of ticks: each cycle runs in turn, threading `last_ip`, and any
cycle error propagates out of the loop (ending the whole run), exactly
as `?` inside `loop` does in `run`. Returns the final `last_ip` and the
concatenated provider-call trace on full success. -/
def runLoop (zoneId hostname : String) :
    List CycleEnv → Option IpAddr → Except String (Option IpAddr × List ProviderCall)
  | [], lastIp => .ok (lastIp, [])
  | env :: rest, lastIp =>
    match runCycle zoneId hostname env lastIp with
    | .error e => .error e
    | .ok (lastIp2, calls) =>
      match runLoop zoneId hostname rest lastIp2 with
      | .error e => .error e
      | .ok (lastIpF, callsRest) => .ok (lastIpF, calls ++ callsRest)

/-! ## Closed forms for the composed diagnostic -/

mutual

/-- The block of context lines contributed by one response error when it
wraps an inner diagnostic, outermost first: the error's own context line
followed by the blocks of its chain entries in chain order. Read
innermost-to-outermost (right to left), the chain messages of an error
appear before the error's own line. -/
def diag : CloudflareResponseError → List String
  | e@(.mk _ _ chain) => contextLine e :: diagChain chain

/-- The concatenated blocks of a list of response errors. -/
def diagChain : List CloudflareResponseError → List String
  | [] => []
  | c :: cs => diag c ++ diagChain cs

end

mutual

/-- Every error in the tree rooted at one response error: the error
itself and, recursively, every entry of its nested chain. -/
def allErrors1 : CloudflareResponseError → List CloudflareResponseError
  | e@(.mk _ _ chain) => e :: allErrorsChain chain

/-- Every error in a forest of response errors. -/
def allErrorsChain : List CloudflareResponseError → List CloudflareResponseError
  | [] => []
  | c :: cs => allErrors1 c ++ allErrorsChain cs

end

/-- A sample target-shape deserializer (standing for one concrete `T` of
the generic envelope): accepts the wire value `7` and reports a failing
field path and cause otherwise. Used only to witness the envelope
theorems at a concrete instance. -/
def sampleDec : Nat → Except (String × String) Nat :=
  fun n => if n = 7 then .ok 7 else .error ("result.value", "invalid type")

/-! # Theorems -/

/-- A record satisfies the search predicate of step 5a iff its name and
kind are exactly the desired ones. -/
theorem desiredMatch_iff (dn : String) (dk : CloudflareDnsRecordKind)
    (r : CloudflareDnsRecord) :
    desiredMatch dn dk r = true ↔ (r.name = dn ∧ r.kind = dk) := by
  simp [desiredMatch]

/-- C1 (amended): in a reconciliation pass for desired hostname, kind
`kindOfIp ip`, and address `ip`: (a) when no listed record matches the
desired name and kind, the pass creates exactly one record with the
desired kind, name, and content and defaulted comment (`none`), proxied
(`false`), and ttl (`3600`), as its only mutating call; (b) when the
first matching record (in listing order) has content differing from the
desired address, the pass performs exactly one update, on that record's
id, sending that record with only its content replaced; (c) in every
case at most one mutating call is made, and every mutating call is a
create or an update (the client has no delete operation). -/
theorem reconcile_upsert_amended (zoneId hostname : String) (ip : IpAddr)
    (records : List CloudflareDnsRecord) :
    ((∀ r ∈ records, ¬(r.name = hostname ∧ r.kind = kindOfIp ip)) →
      reconcilePass hostname ip records =
        .create ⟨"", kindOfIp ip, hostname, ipToString ip, none, false, 3600⟩ ∧
      mutatingCalls zoneId (reconcilePass hostname ip records) =
        [.createRecord zoneId ⟨"", kindOfIp ip, hostname, ipToString ip, none, false, 3600⟩]) ∧
    (∀ existing, records.find? (desiredMatch hostname (kindOfIp ip)) = some existing →
      existing.content ≠ ipToString ip →
      reconcilePass hostname ip records =
        .update existing.id { existing with content := ipToString ip } ∧
      mutatingCalls zoneId (reconcilePass hostname ip records) =
        [.updateRecord zoneId existing.id { existing with content := ipToString ip }]) ∧
    ((mutatingCalls zoneId (reconcilePass hostname ip records)).length ≤ 1 ∧
      ∀ c ∈ mutatingCalls zoneId (reconcilePass hostname ip records),
        (∃ rec, c = .createRecord zoneId rec) ∨ (∃ rid rec, c = .updateRecord zoneId rid rec)) := by
  refine ⟨?_, ?_, ?_⟩
  · intro h
    have hfind : records.find? (desiredMatch hostname (kindOfIp ip)) = none := by
      rw [List.find?_eq_none]
      intro r hr hmatch
      exact h r hr ((desiredMatch_iff _ _ _).mp hmatch)
    constructor
    · simp only [reconcilePass, hfind, CloudflareDnsRecord.default, default_ttl]
    · simp only [reconcilePass, hfind, mutatingCalls, CloudflareDnsRecord.default, default_ttl]
  · intro existing hfind hne
    have hbeq : (existing.content == ipToString ip) = false := by
      simpa using hne
    constructor
    · simp only [reconcilePass, hfind, hbeq, Bool.false_eq_true, if_false]
    · simp only [reconcilePass, hfind, hbeq, Bool.false_eq_true, if_false, mutatingCalls]
  · cases hd : reconcilePass hostname ip records <;>
      simp [mutatingCalls]

/-- C1 witness: at concrete inputs, an empty listing yields exactly the
defaulted create, and a single differing record yields exactly the
content-replacing update. -/
theorem reconcile_upsert_amended_witness :
    reconcilePass "home.example.com" (.v4 1 2 3 4) [] =
      .create ⟨"", .A, "home.example.com", "1.2.3.4", none, false, 3600⟩ ∧
    reconcilePass "home.example.com" (.v4 1 2 3 4)
        [⟨"r1", .A, "home.example.com", "9.9.9.9", some "c", true, 60⟩] =
      .update "r1" ⟨"r1", .A, "home.example.com", "1.2.3.4", some "c", true, 60⟩ := by
  constructor
  · exact ((reconcile_upsert_amended "zone1" "home.example.com" (.v4 1 2 3 4) []).1
      (by simp)).1
  · exact ((reconcile_upsert_amended "zone1" "home.example.com" (.v4 1 2 3 4)
      [⟨"r1", .A, "home.example.com", "9.9.9.9", some "c", true, 60⟩]).2.1
      ⟨"r1", .A, "home.example.com", "9.9.9.9", some "c", true, 60⟩ (by decide) (by decide)).1

/-- C1 counterexample: the claim as stated quantifies over any matching
record with differing content. With two records sharing the desired
(name, kind) where the first already equals the desired address, a
matching record with differing content exists (`rec2`) yet the pass is a
no-op and performs no update call at all, contradicting the claimed
"exactly one update call occurs on that record's id". -/
theorem reconcile_upsert_counterexample :
    ((⟨"rec2", .A, "home.example.com", "9.9.9.9", none, false, 3600⟩ : CloudflareDnsRecord) ∈
      ([⟨"rec1", .A, "home.example.com", "1.2.3.4", none, false, 3600⟩,
        ⟨"rec2", .A, "home.example.com", "9.9.9.9", none, false, 3600⟩] :
        List CloudflareDnsRecord) ∧
      desiredMatch "home.example.com" (kindOfIp (.v4 1 2 3 4))
        ⟨"rec2", .A, "home.example.com", "9.9.9.9", none, false, 3600⟩ = true ∧
      (⟨"rec2", .A, "home.example.com", "9.9.9.9", none, false, 3600⟩ :
        CloudflareDnsRecord).content ≠ ipToString (.v4 1 2 3 4)) ∧
    reconcilePass "home.example.com" (.v4 1 2 3 4)
      [⟨"rec1", .A, "home.example.com", "1.2.3.4", none, false, 3600⟩,
       ⟨"rec2", .A, "home.example.com", "9.9.9.9", none, false, 3600⟩] = .noop ∧
    mutatingCalls "zone1" (reconcilePass "home.example.com" (.v4 1 2 3 4)
      [⟨"rec1", .A, "home.example.com", "1.2.3.4", none, false, 3600⟩,
       ⟨"rec2", .A, "home.example.com", "9.9.9.9", none, false, 3600⟩]) = [] := by
  refine ⟨⟨by decide, by decide, by decide⟩, by decide, by decide⟩

/-- C5 (amended): when the first record matching the desired (name,
kind) in listing order has content string-equal to the desired address,
the pass is the explicitly reported no-op decision and performs no
mutating provider call. -/
theorem reconcile_noop_amended (zoneId hostname : String) (ip : IpAddr)
    (records : List CloudflareDnsRecord) (existing : CloudflareDnsRecord)
    (hfind : records.find? (desiredMatch hostname (kindOfIp ip)) = some existing)
    (heq : existing.content = ipToString ip) :
    reconcilePass hostname ip records = .noop ∧
    mutatingCalls zoneId (reconcilePass hostname ip records) = [] := by
  have hpass : reconcilePass hostname ip records = .noop := by
    simp only [reconcilePass, hfind, heq, beq_self_eq_true, if_true]
  exact ⟨hpass, by rw [hpass]; rfl⟩

/-- C5 witness: a single record already holding the desired address
yields the no-op with no mutating call. -/
theorem reconcile_noop_amended_witness :
    reconcilePass "home.example.com" (.v4 1 2 3 4)
      [⟨"r1", .A, "home.example.com", "1.2.3.4", none, false, 3600⟩] = .noop ∧
    mutatingCalls "zone1" (reconcilePass "home.example.com" (.v4 1 2 3 4)
      [⟨"r1", .A, "home.example.com", "1.2.3.4", none, false, 3600⟩]) = [] :=
  reconcile_noop_amended "zone1" "home.example.com" (.v4 1 2 3 4)
    [⟨"r1", .A, "home.example.com", "1.2.3.4", none, false, 3600⟩]
    ⟨"r1", .A, "home.example.com", "1.2.3.4", none, false, 3600⟩ (by decide) (by decide)

/-- C5 counterexample: the claim as stated quantifies over any matching
record with equal content. With two records sharing the desired (name,
kind) where the first differs and the second equals the desired address,
a matching record with equal content exists (`rec2`) yet the pass
performs an update call, contradicting the claimed "no create call and
no update call occurs". -/
theorem reconcile_noop_counterexample :
    ((⟨"rec2", .A, "home.example.com", "1.2.3.4", none, false, 3600⟩ : CloudflareDnsRecord) ∈
      ([⟨"rec1", .A, "home.example.com", "9.9.9.9", none, false, 3600⟩,
        ⟨"rec2", .A, "home.example.com", "1.2.3.4", none, false, 3600⟩] :
        List CloudflareDnsRecord) ∧
      desiredMatch "home.example.com" (kindOfIp (.v4 1 2 3 4))
        ⟨"rec2", .A, "home.example.com", "1.2.3.4", none, false, 3600⟩ = true ∧
      (⟨"rec2", .A, "home.example.com", "1.2.3.4", none, false, 3600⟩ :
        CloudflareDnsRecord).content = ipToString (.v4 1 2 3 4)) ∧
    reconcilePass "home.example.com" (.v4 1 2 3 4)
      [⟨"rec1", .A, "home.example.com", "9.9.9.9", none, false, 3600⟩,
       ⟨"rec2", .A, "home.example.com", "1.2.3.4", none, false, 3600⟩] =
      .update "rec1" ⟨"rec1", .A, "home.example.com", "1.2.3.4", none, false, 3600⟩ ∧
    mutatingCalls "zone1" (reconcilePass "home.example.com" (.v4 1 2 3 4)
      [⟨"rec1", .A, "home.example.com", "9.9.9.9", none, false, 3600⟩,
       ⟨"rec2", .A, "home.example.com", "1.2.3.4", none, false, 3600⟩]) =
      [.updateRecord "zone1" "rec1"
        ⟨"rec1", .A, "home.example.com", "1.2.3.4", none, false, 3600⟩] := by
  refine ⟨⟨by decide, by decide, by decide⟩, by decide, by decide⟩

/-- C2 (amended): a failure during a poll cycle — gateway discovery,
external-address lookup, or any provider call — propagates out of the
loop via the `?` operators: the whole run ends with that cycle's error
and no subsequent tick executes. (Startup configuration errors likewise
terminate the run, before the loop.) -/
theorem cycle_failure_terminates_run (zoneId hostname : String) (env : CycleEnv)
    (rest : List CycleEnv) (lastIp : Option IpAddr) (e : String)
    (h : runCycle zoneId hostname env lastIp = .error e) :
    runLoop zoneId hostname (env :: rest) lastIp = .error e := by
  simp only [runLoop, h]

/-- C2 witness: a concrete failing gateway search ends a two-tick run
with that error. -/
theorem cycle_failure_terminates_run_witness :
    runCycle "zone1" "home.example.com" ⟨false, none, none, true, true⟩ none =
      .error "failed to find gateway / router through uPnP" ∧
    runLoop "zone1" "home.example.com"
      [⟨false, none, none, true, true⟩,
       ⟨true, some (.v4 1 2 3 4), some [], true, true⟩] none =
      .error "failed to find gateway / router through uPnP" :=
  ⟨rfl, cycle_failure_terminates_run "zone1" "home.example.com"
    ⟨false, none, none, true, true⟩ [⟨true, some (.v4 1 2 3 4), some [], true, true⟩]
    none "failed to find gateway / router through uPnP" rfl⟩

/-- C2 counterexample: the claim says a failing cycle is abandoned and
the loop proceeds to its next scheduled tick without crashing. On a
two-tick schedule whose first cycle fails gateway discovery, the run
terminates with that error, and the second cycle — which alone would
have listed records and created one — never executes (its calls are
absent from the outcome, which is an error, not a continuation). -/
theorem cycle_failure_counterexample :
    runLoop "zone1" "home.example.com"
      [⟨false, none, none, true, true⟩,
       ⟨true, some (.v4 1 2 3 4), some [], true, true⟩] none =
      .error "failed to find gateway / router through uPnP" ∧
    runLoop "zone1" "home.example.com"
      [⟨true, some (.v4 1 2 3 4), some [], true, true⟩] none =
      .ok (some (.v4 1 2 3 4),
        [.listRecords "zone1",
         .createRecord "zone1" ⟨"", .A, "home.example.com", "1.2.3.4", none, false, 3600⟩]) :=
  ⟨rfl, rfl⟩

/-- The reversed-chain wrapping loop of `add_context` prepends exactly
the diagnostic block of the chain. -/
theorem addContextChain_eq (cs : List CloudflareResponseError) (err : List String) :
    addContextChain cs err = diagChain cs ++ err := by
  match cs with
  | [] => rw [addContextChain, diagChain]; rfl
  | (CloudflareResponseError.mk code msg chain) :: rest =>
    have hrest := addContextChain_eq rest err
    have hchain := addContextChain_eq chain (addContextChain rest err)
    rw [addContextChain, addContext, hchain, hrest, diagChain, diag]
    simp [List.append_assoc]
termination_by sizeOf cs
decreasing_by
  all_goals (simp_wf <;> omega)

/-- `add_context` prepends exactly the diagnostic block of its error. -/
theorem addContext_eq (e : CloudflareResponseError) (err : List String) :
    addContext e err = diag e ++ err := by
  obtain ⟨code, msg, chain⟩ := e
  rw [addContext, addContextChain_eq, diag]
  rfl

/-- Diagnostic blocks concatenate over list concatenation. -/
theorem diagChain_append (a b : List CloudflareResponseError) :
    diagChain (a ++ b) = diagChain a ++ diagChain b := by
  induction a with
  | nil => rw [diagChain]; rfl
  | cons c cs ih => rw [List.cons_append, diagChain, diagChain, ih, List.append_assoc]

/-- The `for e in errors` wrapping loop of `into_result` prepends the
diagnostic blocks of the errors in reverse order. -/
theorem foldl_addContext_eq (l : List CloudflareResponseError) (acc : List String) :
    l.foldl (fun a e => addContext e a) acc = diagChain l.reverse ++ acc := by
  induction l generalizing acc with
  | nil => rw [List.foldl_nil, List.reverse_nil, diagChain]; rfl
  | cons e es ih =>
    rw [List.foldl_cons, ih (addContext e acc), addContext_eq, List.reverse_cons,
      diagChain_append, diagChain, diagChain, List.append_assoc, List.append_nil]

/-- Every error in a forest belongs to the tree of some root in it. -/
theorem exists_of_mem_allErrorsChain (cs : List CloudflareResponseError)
    (e : CloudflareResponseError) (h : e ∈ allErrorsChain cs) :
    ∃ d ∈ cs, e ∈ allErrors1 d := by
  induction cs with
  | nil => rw [allErrorsChain] at h; cases h
  | cons c rest ih =>
    rw [allErrorsChain] at h
    rcases List.mem_append.mp h with h1 | h2
    · exact ⟨c, List.mem_cons_self c rest, h1⟩
    · obtain ⟨d, hd, hed⟩ := ih h2
      exact ⟨d, List.mem_cons_of_mem c hd, hed⟩

/-- A line of a member's block is a line of the forest's block. -/
theorem mem_diagChain_of_mem (cs : List CloudflareResponseError)
    (d : CloudflareResponseError) (x : String) (hd : d ∈ cs) (hx : x ∈ diag d) :
    x ∈ diagChain cs := by
  induction cs with
  | nil => cases hd
  | cons c rest ih =>
    rw [diagChain]
    rcases List.mem_cons.mp hd with h1 | h2
    · subst h1; exact List.mem_append_left _ hx
    · exact List.mem_append_right _ (ih h2)

/-- Size-bounded auxiliary form of `contextLine_mem_diag`. -/
theorem contextLine_mem_diag_aux :
    ∀ n, ∀ (d e : CloudflareResponseError), sizeOf d ≤ n → e ∈ allErrors1 d →
      contextLine e ∈ diag d := by
  intro n
  induction n with
  | zero =>
    intro d e hle h
    obtain ⟨code, msg, chain⟩ := d
    simp at hle
  | succ n ih =>
    intro d e hle h
    obtain ⟨code, msg, chain⟩ := d
    rw [allErrors1] at h
    rw [diag]
    rcases List.mem_cons.mp h with he | hch
    · subst he; exact List.mem_cons_self _ _
    · obtain ⟨d2, hd2, he2⟩ := exists_of_mem_allErrorsChain chain e hch
      have hsz : sizeOf d2 ≤ n := by
        have h1 := List.sizeOf_lt_of_mem hd2
        simp at hle
        omega
      exact List.mem_cons_of_mem _
        (mem_diagChain_of_mem chain d2 _ hd2 (ih d2 e hsz he2))

/-- The context line of every error in a tree occurs in the root's
diagnostic block. -/
theorem contextLine_mem_diag (d e : CloudflareResponseError)
    (h : e ∈ allErrors1 d) : contextLine e ∈ diag d :=
  contextLine_mem_diag_aux (sizeOf d) d e le_rfl h

/-- C4: on a failure outcome with a non-empty error list, `into_result`
composes the single diagnostic whose context lines are, outermost first:
the `cloudflare API error` marker, then for each top-level error in
reverse list order its own `code: <n>, message: <text>` line followed by
its nested chain's blocks in chain order (so, read innermost to
outermost, each error's chain messages precede its own line), and the
`cloudflare API error` marker again innermost; and the diagnostic
contains the context line of every error of every nested chain. -/
theorem into_result_failure_diagnostic {T : Type}
    (errors : List CloudflareResponseError) (_hne : errors ≠ []) :
    intoResult (CloudflareResponse.error (T := T) errors) =
      .error ("cloudflare API error" ::
        (diagChain errors.reverse ++ ["cloudflare API error"])) ∧
    ∀ e ∈ allErrorsChain errors,
      contextLine e ∈ ("cloudflare API error" ::
        (diagChain errors.reverse ++ ["cloudflare API error"])) := by
  constructor
  · rw [intoResult, foldl_addContext_eq]
  · intro e he
    obtain ⟨d, hd, hed⟩ := exists_of_mem_allErrorsChain errors e he
    have hline := contextLine_mem_diag d e hed
    exact List.mem_cons_of_mem _ (List.mem_append_left _
      (mem_diagChain_of_mem errors.reverse d _ (List.mem_reverse.mpr hd) hline))

/-- C4 witness: a failure with a two-level nested chain composes the
concrete diagnostic with all chain messages present, chain messages
innermost-to-outermost relative to their error's own line, and the
`cloudflare API error` marker at both ends. -/
theorem into_result_failure_diagnostic_witness :
    intoResult (CloudflareResponse.error (T := Nat)
        [.mk 100 "outer" [.mk 200 "mid" [.mk 300 "deep" []]]]) =
      .error ["cloudflare API error", "code: 100, message: outer",
        "code: 200, message: mid", "code: 300, message: deep",
        "cloudflare API error"] := by
  have h := (into_result_failure_diagnostic (T := Nat)
    [.mk 100 "outer" [.mk 200 "mid" [.mk 300 "deep" []]]] (by simp)).1
  have hd : diagChain ([CloudflareResponseError.mk 100 "outer"
      [.mk 200 "mid" [.mk 300 "deep" []]]].reverse) =
      ["code: 100, message: outer", "code: 200, message: mid",
       "code: 300, message: deep"] := by
    simp [diagChain, diag, contextLine, CloudflareResponseError.code,
      CloudflareResponseError.message]
    decide
  rw [hd] at h
  exact h

/-- C3: the envelope decoder applied to a well-formed raw payload with
shape `(success, optional result, errors list)`: success with a present
result decoding into the target shape yields `Success`; success with a
result that fails the target shape yields a decode error identifying the
failing field path and cause; success without a result, and failure
without errors, yield the respective decode errors; failure with a
non-empty error list yields `Failure` carrying exactly those errors. -/
theorem envelope_decoder_cases {J T : Type} (dec : J → Except (String × String) T) :
    (∀ (raw : CloudflareResponseRaw J) (v : J) (t : T), raw.success = true →
      raw.result = some v → dec v = .ok t →
      deserializeFromRaw dec raw = .ok (.success t)) ∧
    (∀ (raw : CloudflareResponseRaw J) (v : J) (path cause : String),
      raw.success = true → raw.result = some v → dec v = .error (path, cause) →
      deserializeFromRaw dec raw =
        .error ("failed to deserialize at \x27" ++ path ++ "\x27: " ++ cause)) ∧
    (∀ raw : CloudflareResponseRaw J, raw.success = true → raw.result = none →
      deserializeFromRaw dec raw =
        .error "response was successful, but result is missing") ∧
    (∀ raw : CloudflareResponseRaw J, raw.success = false → raw.errors = [] →
      deserializeFromRaw dec raw =
        .error "response was failure, but errors are missing") ∧
    (∀ raw : CloudflareResponseRaw J, raw.success = false → raw.errors ≠ [] →
      deserializeFromRaw dec raw = .ok (.error raw.errors)) := by
  refine ⟨?_, ?_, ?_, ?_, ?_⟩
  · rintro ⟨s, res, errs⟩ v t hs hres hdec
    subst hs; subst hres
    simp [deserializeFromRaw, hdec]
  · rintro ⟨s, res, errs⟩ v path cause hs hres hdec
    subst hs; subst hres
    simp [deserializeFromRaw, hdec]
  · rintro ⟨s, res, errs⟩ hs hres
    subst hs; subst hres
    simp [deserializeFromRaw]
  · rintro ⟨s, res, errs⟩ hs herrs
    subst hs; subst herrs
    simp [deserializeFromRaw]
  · rintro ⟨s, res, errs⟩ hs herrs
    subst hs
    simp only at herrs
    simp [deserializeFromRaw, List.isEmpty_iff, herrs]

/-- C3 witness: the five decoder outcomes at a concrete target shape
(`sampleDec` accepts the wire value 7): matching success, mismatching
success with the failing path, missing result, empty failure, and a
failure carrying its errors. -/
theorem envelope_decoder_cases_witness :
    deserializeFromRaw sampleDec ⟨true, some 7, []⟩ = .ok (.success 7) ∧
    deserializeFromRaw sampleDec ⟨true, some 8, []⟩ =
      .error "failed to deserialize at \x27result.value\x27: invalid type" ∧
    deserializeFromRaw sampleDec ⟨true, none, []⟩ =
      .error "response was successful, but result is missing" ∧
    deserializeFromRaw sampleDec ⟨false, none, []⟩ =
      .error "response was failure, but errors are missing" ∧
    deserializeFromRaw sampleDec ⟨false, none, [.mk 9109 "oops" []]⟩ =
      .ok (.error [.mk 9109 "oops" []]) := by
  refine ⟨?_, ?_, ?_, ?_, ?_⟩
  · exact (envelope_decoder_cases sampleDec).1 ⟨true, some 7, []⟩ 7 7 rfl rfl rfl
  · exact (envelope_decoder_cases sampleDec).2.1 ⟨true, some 8, []⟩ 8
      "result.value" "invalid type" rfl rfl rfl
  · exact (envelope_decoder_cases sampleDec).2.2.1 ⟨true, none, []⟩ rfl rfl
  · exact (envelope_decoder_cases sampleDec).2.2.2.1 ⟨false, none, []⟩ rfl rfl
  · exact (envelope_decoder_cases sampleDec).2.2.2.2 ⟨false, none, [.mk 9109 "oops" []]⟩
      rfl (by simp)

/-! ## Extraction lemmas -/

/-- Success of `parse_ip` is independent of the reporting source: it
holds exactly when the trimmed value is nonempty and parses. -/
theorem parseIpValue_ok_iff (kind name value : String) (a : IpAddr) :
    parseIpValue kind name value = .ok a ↔
      trimStr value ≠ "" ∧ stdParseIp (trimStr value) = some a := by
  simp only [parseIpValue]
  split_ifs with h
  · simp [h]
  · cases hp : stdParseIp (trimStr value) <;> simp [h, hp]

/-- Success of `parse_hostname` is independent of the reporting source:
it holds exactly when the scheme-stripped value is nonempty and valid. -/
theorem parseHostname_ok_iff (kind name value : String) (h : String) :
    parseHostname kind name value = .ok h ↔ hostnameOk value = some h := by
  simp only [parseHostname, hostnameOk]
  split_ifs with he
  · simp
  · cases hf : hostnameFromStr (stripHttpScheme value) <;> simp [hf]

/-- Success of `header_str` is independent of the header name: it holds
exactly when every byte is visible ASCII. -/
theorem headerStr_ok_iff (name : String) (bs : HeaderBytes) (s : String) :
    headerStr name bs = .ok s ↔ (bs.all isVisibleAscii = true ∧ bytesToStr bs = s) := by
  simp only [headerStr]
  split_ifs with h
  · simp [h, eq_comm]
  · simp [h]

/-- A value accepted by `parse_ip_variant` is accepted with the same
result whatever reporting source is named (only error messages mention
the source). -/
theorem parseIpVariant_ok_irrel (hs : Headers) (k n k2 n2 v : String)
    (r : IpVariant) (H : parseIpVariant hs k n v = .ok r) :
    parseIpVariant hs k2 n2 v = .ok r := by
  simp only [parseIpVariant] at H ⊢
  by_cases hf : eqIgnoreCase (trimStr v) "fetch" = true
  · simp only [hf, if_true] at H ⊢
    exact H
  · rw [Bool.not_eq_true] at hf
    simp only [hf, Bool.false_eq_true, if_false] at H ⊢
    by_cases ha : eqIgnoreCase (trimStr v) "auto" = true
    · simp only [ha, if_true] at H ⊢
      cases hcf : headerGet hs "cf-connecting-ip" with
      | some bs => rw [hcf] at H; exact H
      | none =>
        rw [hcf] at H
        cases hreal : headerGet hs "x-real-ip" with
        | some bs => rw [hreal] at H; exact H
        | none =>
          rw [hreal] at H
          cases hff : headerGet hs "x-forwarded-for" with
          | some bs => rw [hff] at H; exact H
          | none => rw [hff] at H; simp at H
    · rw [Bool.not_eq_true] at ha
      simp only [ha, Bool.false_eq_true, if_false] at H ⊢
      cases hp : parseIpValue k n (trimStr v) with
      | error e => rw [hp] at H; simp [Except.map] at H
      | ok a =>
        rw [hp] at H
        simp only [Except.map, Except.ok.injEq] at H
        have hv := (parseIpValue_ok_iff k n (trimStr v) a).mp hp
        rw [(parseIpValue_ok_iff k2 n2 (trimStr v) a).mpr hv]
        simp [Except.map, H]

/-- `parse_ip_variant` reads only the three `auto`-resolution headers:
two header maps agreeing on them yield identical results. -/
theorem parseIpVariant_headers_agree (h1 h2 : Headers) (k n v : String)
    (hcf : headerGet h2 "cf-connecting-ip" = headerGet h1 "cf-connecting-ip")
    (hreal : headerGet h2 "x-real-ip" = headerGet h1 "x-real-ip")
    (hff : headerGet h2 "x-forwarded-for" = headerGet h1 "x-forwarded-for") :
    parseIpVariant h2 k n v = parseIpVariant h1 k n v := by
  simp only [parseIpVariant, hcf, hreal, hff]

/-- A value that case-insensitively equals `auto` does not equal
`fetch`. -/
theorem auto_not_fetch (v : String) (ha : eqIgnoreCase v "auto" = true) :
    eqIgnoreCase v "fetch" = false := by
  rw [eqIgnoreCase] at ha ⊢
  have hl : lowerStr v = "auto" := by
    have h2 : lowerStr v = lowerStr "auto" := beq_iff_eq.mp ha
    simpa using h2
  rw [hl]
  decide

/-- C10: once the priority-ordered search finds its first present
source, that source's value is used exclusively, and a failing value is
reported without consulting any lower-priority source: (a) with a
recognized hostname query parameter present (the first in search
order), hostname extraction equals parsing that value, headers and
later parameters never participating; (b) likewise for address-intent
extraction; (c) with no recognized hostname query parameter and a
recognized hostname header present (the first in search order),
extraction equals converting and parsing that header's bytes alone, so
a non-UTF-8 value or malformed hostname is a 400 error even when a
lower-priority header holds a valid value; (d) likewise for
address-intent headers; (e) within the `auto` resolution chain, a
present `CF-Connecting-Ip` decides the result alone; (f) with
`CF-Connecting-Ip` absent, a present `X-Real-Ip` decides alone,
`X-Forwarded-For` never consulted; (g) with both absent, a present
`X-Forwarded-For` decides alone through its first comma token. -/
theorem no_fallback_after_first_match :
    (∀ (q : QueryParams) (hs : Headers) (p v : String),
      firstQuery HOSTNAME_QUERY_PARAMS q = some (p, v) →
      hostnameFromRequestParts q hs = parseHostname "query parameter" p v) ∧
    (∀ (q : QueryParams) (hs : Headers) (p v : String),
      firstQuery IP_QUERY_PARAMS q = some (p, v) →
      ipVariantFromRequestParts q hs = parseIpVariant hs "query parameter" p v) ∧
    (∀ (q : QueryParams) (hs : Headers) (n : String) (bs : HeaderBytes),
      firstQuery HOSTNAME_QUERY_PARAMS q = none →
      firstHeader HOSTNAME_HEADERS hs = some (n, bs) →
      hostnameFromRequestParts q hs =
        (headerStr n bs).bind (fun v => parseHostname "header" n v)) ∧
    (∀ (q : QueryParams) (hs : Headers) (n : String) (bs : HeaderBytes),
      firstQuery IP_QUERY_PARAMS q = none →
      firstHeader IP_HEADERS hs = some (n, bs) →
      ipVariantFromRequestParts q hs =
        (headerStr n bs).bind (fun v => parseIpVariant hs "header" n v)) ∧
    (∀ (hs : Headers) (k n v : String) (bs : HeaderBytes),
      eqIgnoreCase (trimStr v) "auto" = true →
      headerGet hs "cf-connecting-ip" = some bs →
      parseIpVariant hs k n v =
        (headerStr "cf-connecting-ip" bs).bind
          (fun s => (parseIpValue "header" "cf-connecting-ip" s).map .auto)) ∧
    (∀ (hs : Headers) (k n v : String) (bs : HeaderBytes),
      eqIgnoreCase (trimStr v) "auto" = true →
      headerGet hs "cf-connecting-ip" = none →
      headerGet hs "x-real-ip" = some bs →
      parseIpVariant hs k n v =
        (headerStr "x-real-ip" bs).bind
          (fun s => (parseIpValue "header" "x-real-ip" s).map .auto)) ∧
    (∀ (hs : Headers) (k n v : String) (bs : HeaderBytes),
      eqIgnoreCase (trimStr v) "auto" = true →
      headerGet hs "cf-connecting-ip" = none →
      headerGet hs "x-real-ip" = none →
      headerGet hs "x-forwarded-for" = some bs →
      parseIpVariant hs k n v =
        (headerStr "x-forwarded-for" bs).bind
          (fun s => (parseIpValue "header" "x-forwarded-for" (firstForwarded s)).map .auto)) := by
  refine ⟨?_, ?_, ?_, ?_, ?_, ?_, ?_⟩
  · intro q hs p v hq
    simp only [hostnameFromRequestParts, hq]
  · intro q hs p v hq
    simp only [ipVariantFromRequestParts, hq]
  · intro q hs n bs hq hh
    simp only [hostnameFromRequestParts, hq, hh]
  · intro q hs n bs hq hh
    simp only [ipVariantFromRequestParts, hq, hh]
  · intro hs k n v bs ha hcf
    have hf := auto_not_fetch (trimStr v) ha
    simp only [parseIpVariant, hf, Bool.false_eq_true, if_false, ha, if_true, hcf]
  · intro hs k n v bs ha hcf hreal
    have hf := auto_not_fetch (trimStr v) ha
    simp only [parseIpVariant, hf, Bool.false_eq_true, if_false, ha, if_true, hcf, hreal]
  · intro hs k n v bs ha hcf hreal hff
    have hf := auto_not_fetch (trimStr v) ha
    simp only [parseIpVariant, hf, Bool.false_eq_true, if_false, ha, if_true, hcf,
      hreal, hff]

/-- C10 witness: a malformed first hostname query parameter yields its
own 400 error although a later recognized parameter holds a valid
hostname; a malformed and a non-UTF-8 `x-hostname` each yield their own
400 error although `x-targethostname` holds a valid hostname; a garbage
`x-ip` yields its own 400 error although `x-myip` holds a valid
address; a garbage `CF-Connecting-Ip` wins over a valid `X-Real-Ip`; a
garbage `X-Real-Ip` wins over a valid `X-Forwarded-For`; and a
forwarded-for list is decided by its first token alone. -/
theorem no_fallback_after_first_match_witness :
    hostnameFromRequestParts [("hostname", "!!"), ("targethostname", "ok.example.com")] [] =
      .error (400, "invalid hostname in query parameter \x27hostname\x27: idna errors") ∧
    hostnameFromRequestParts []
        [("x-hostname", asciiBytes "!!"), ("x-targethostname", asciiBytes "ok.example.com")] =
      .error (400, "invalid hostname in header \x27x-hostname\x27: idna errors") ∧
    hostnameFromRequestParts []
        [("x-hostname", [200]), ("x-targethostname", asciiBytes "ok.example.com")] =
      .error (400,
        "invalid UTF8 in header \x27x-hostname\x27: failed to convert header to a str") ∧
    ipVariantFromRequestParts []
        [("x-ip", asciiBytes "garbage"), ("x-myip", asciiBytes "1.2.3.4")] =
      .error (400,
        "invalid IP address in header \x27x-ip\x27: invalid IP address syntax") ∧
    parseIpVariant [("cf-connecting-ip", asciiBytes "garbage"),
        ("x-real-ip", asciiBytes "5.6.7.8")] "query parameter" "ip" "auto" =
      .error (400,
        "invalid IP address in header \x27cf-connecting-ip\x27: invalid IP address syntax") ∧
    parseIpVariant [("x-real-ip", asciiBytes "garbage"),
        ("x-forwarded-for", asciiBytes "7.7.7.7")] "query parameter" "ip" "auto" =
      .error (400,
        "invalid IP address in header \x27x-real-ip\x27: invalid IP address syntax") ∧
    parseIpVariant [("x-forwarded-for", asciiBytes "garbage, 1.2.3.4")]
        "query parameter" "ip" "auto" =
      .error (400,
        "invalid IP address in header \x27x-forwarded-for\x27: invalid IP address syntax") := by
  refine ⟨?_, ?_, ?_, ?_, ?_, ?_, ?_⟩
  · rw [no_fallback_after_first_match.1
      [("hostname", "!!"), ("targethostname", "ok.example.com")] [] "hostname" "!!" rfl]
    rfl
  · rw [no_fallback_after_first_match.2.2.1 []
      [("x-hostname", asciiBytes "!!"), ("x-targethostname", asciiBytes "ok.example.com")]
      "x-hostname" (asciiBytes "!!") rfl rfl]
    rfl
  · rw [no_fallback_after_first_match.2.2.1 []
      [("x-hostname", [200]), ("x-targethostname", asciiBytes "ok.example.com")]
      "x-hostname" [200] rfl rfl]
    rfl
  · rw [no_fallback_after_first_match.2.2.2.1 []
      [("x-ip", asciiBytes "garbage"), ("x-myip", asciiBytes "1.2.3.4")]
      "x-ip" (asciiBytes "garbage") rfl rfl]
    rfl
  · rw [no_fallback_after_first_match.2.2.2.2.1 [("cf-connecting-ip", asciiBytes "garbage"),
      ("x-real-ip", asciiBytes "5.6.7.8")] "query parameter" "ip" "auto"
      (asciiBytes "garbage") rfl rfl]
    rfl
  · rw [no_fallback_after_first_match.2.2.2.2.2.1 [("x-real-ip", asciiBytes "garbage"),
      ("x-forwarded-for", asciiBytes "7.7.7.7")] "query parameter" "ip" "auto"
      (asciiBytes "garbage") rfl rfl rfl]
    rfl
  · rw [no_fallback_after_first_match.2.2.2.2.2.2
      [("x-forwarded-for", asciiBytes "garbage, 1.2.3.4")] "query parameter" "ip" "auto"
      (asciiBytes "garbage, 1.2.3.4") rfl rfl rfl rfl]
    rfl

/-- C7: when both a recognized query-parameter variant and a recognized
header variant are present, address-intent extraction parses the
query-parameter value (the recognized header variants have no influence:
any header map agreeing on the three `auto`-resolution headers gives the
same result), and hostname extraction parses the query-parameter value
(its result does not depend on headers at all). -/
theorem query_beats_header :
    (∀ (q : QueryParams) (hs : Headers) (p v n : String) (bs : HeaderBytes),
      firstQuery IP_QUERY_PARAMS q = some (p, v) →
      firstHeader IP_HEADERS hs = some (n, bs) →
      ipVariantFromRequestParts q hs = parseIpVariant hs "query parameter" p v ∧
      (∀ hs2 : Headers,
        headerGet hs2 "cf-connecting-ip" = headerGet hs "cf-connecting-ip" →
        headerGet hs2 "x-real-ip" = headerGet hs "x-real-ip" →
        headerGet hs2 "x-forwarded-for" = headerGet hs "x-forwarded-for" →
        ipVariantFromRequestParts q hs2 = ipVariantFromRequestParts q hs)) ∧
    (∀ (q : QueryParams) (hs : Headers) (p v n : String) (bs : HeaderBytes),
      firstQuery HOSTNAME_QUERY_PARAMS q = some (p, v) →
      firstHeader HOSTNAME_HEADERS hs = some (n, bs) →
      hostnameFromRequestParts q hs = parseHostname "query parameter" p v) := by
  constructor
  · intro q hs p v n bs hq _hh
    constructor
    · simp only [ipVariantFromRequestParts, hq]
    · intro hs2 hcf hreal hff
      simp only [ipVariantFromRequestParts, hq]
      exact parseIpVariant_headers_agree hs hs2 "query parameter" p v hcf hreal hff
  · intro q hs p v n bs hq _hh
    simp only [hostnameFromRequestParts, hq]

/-- C7 witness: with `ip=1.2.3.4` and a differing `X-Ip: 9.9.9.9`
header, extraction yields the query value; removing the recognized
header list entirely leaves the result unchanged; likewise the hostname
query parameter wins over a differing `X-Hostname`. -/
theorem query_beats_header_witness :
    ipVariantFromRequestParts [("ip", "1.2.3.4")] [("x-ip", asciiBytes "9.9.9.9")] =
      parseIpVariant [("x-ip", asciiBytes "9.9.9.9")] "query parameter" "ip" "1.2.3.4" ∧
    ipVariantFromRequestParts [("ip", "1.2.3.4")] [] =
      ipVariantFromRequestParts [("ip", "1.2.3.4")] [("x-ip", asciiBytes "9.9.9.9")] ∧
    ipVariantFromRequestParts [("ip", "1.2.3.4")] [("x-ip", asciiBytes "9.9.9.9")] =
      .ok (.ip (.v4 1 2 3 4)) ∧
    hostnameFromRequestParts [("hostname", "a.example.com")]
        [("x-hostname", asciiBytes "b.example.com")] =
      parseHostname "query parameter" "hostname" "a.example.com" := by
  refine ⟨?_, ?_, ?_, ?_⟩
  · exact (query_beats_header.1 [("ip", "1.2.3.4")] [("x-ip", asciiBytes "9.9.9.9")]
      "ip" "1.2.3.4" "x-ip" (asciiBytes "9.9.9.9") rfl rfl).1
  · exact (query_beats_header.1 [("ip", "1.2.3.4")] [("x-ip", asciiBytes "9.9.9.9")]
      "ip" "1.2.3.4" "x-ip" (asciiBytes "9.9.9.9") rfl rfl).2 [] rfl rfl rfl
  · rfl
  · exact query_beats_header.2 [("hostname", "a.example.com")]
      [("x-hostname", asciiBytes "b.example.com")] "hostname" "a.example.com"
      "x-hostname" (asciiBytes "b.example.com") rfl rfl

/-- C8: when the found address-intent value trims, case-insensitively,
to `auto`, resolution uses the first present of `CF-Connecting-Ip`, then
`X-Real-Ip`, then `X-Forwarded-For` (of which only the text before the
first comma is taken), yielding `Auto` of the parsed address; with none
of the three present, extraction fails with a 400 error stating that
`auto` was specified but no relevant IP headers were found. -/
theorem auto_header_chain (hs : Headers) (k n v : String)
    (ha : eqIgnoreCase (trimStr v) "auto" = true) :
    (∀ (bs : HeaderBytes) (s : String) (a : IpAddr),
      headerGet hs "cf-connecting-ip" = some bs →
      headerStr "cf-connecting-ip" bs = .ok s →
      parseIpValue "header" "cf-connecting-ip" s = .ok a →
      parseIpVariant hs k n v = .ok (.auto a)) ∧
    (∀ (bs : HeaderBytes) (s : String) (a : IpAddr),
      headerGet hs "cf-connecting-ip" = none →
      headerGet hs "x-real-ip" = some bs →
      headerStr "x-real-ip" bs = .ok s →
      parseIpValue "header" "x-real-ip" s = .ok a →
      parseIpVariant hs k n v = .ok (.auto a)) ∧
    (∀ (bs : HeaderBytes) (s : String) (a : IpAddr),
      headerGet hs "cf-connecting-ip" = none →
      headerGet hs "x-real-ip" = none →
      headerGet hs "x-forwarded-for" = some bs →
      headerStr "x-forwarded-for" bs = .ok s →
      parseIpValue "header" "x-forwarded-for" (firstForwarded s) = .ok a →
      parseIpVariant hs k n v = .ok (.auto a)) ∧
    (headerGet hs "cf-connecting-ip" = none →
      headerGet hs "x-real-ip" = none →
      headerGet hs "x-forwarded-for" = none →
      parseIpVariant hs k n v = .error (400,
        "\x27auto\x27 specified in " ++ k ++ " \x27" ++ n ++
        "\x27, but no relevant IP headers were found")) := by
  have hf := auto_not_fetch (trimStr v) ha
  refine ⟨?_, ?_, ?_, ?_⟩
  · intro bs s a hcf hstr hparse
    simp only [parseIpVariant, hf, Bool.false_eq_true, if_false, ha, if_true, hcf,
      hstr, Except.bind, hparse, Except.map]
  · intro bs s a hcf hreal hstr hparse
    simp only [parseIpVariant, hf, Bool.false_eq_true, if_false, ha, if_true, hcf,
      hreal, hstr, Except.bind, hparse, Except.map]
  · intro bs s a hcf hreal hff hstr hparse
    simp only [parseIpVariant, hf, Bool.false_eq_true, if_false, ha, if_true, hcf,
      hreal, hff, hstr, Except.bind, hparse, Except.map]
  · intro hcf hreal hff
    simp only [parseIpVariant, hf, Bool.false_eq_true, if_false, ha, if_true, hcf,
      hreal, hff]

/-- C8 witness: with both `CF-Connecting-Ip` and `X-Real-Ip` present the
first wins; with only a forwarded-for list present its first token is
used; with no relevant header present the 400 error results. -/
theorem auto_header_chain_witness :
    parseIpVariant [("cf-connecting-ip", asciiBytes "198.51.100.9"),
        ("x-real-ip", asciiBytes "10.0.0.1")] "header" "x-ip" "auto" =
      .ok (.auto (.v4 198 51 100 9)) ∧
    parseIpVariant [("x-forwarded-for", asciiBytes "9.9.9.9, 10.0.0.1")]
        "query parameter" "ip" " AUTO " = .ok (.auto (.v4 9 9 9 9)) ∧
    parseIpVariant [] "query parameter" "ip" "auto" =
      .error (400,
        "\x27auto\x27 specified in query parameter \x27ip\x27, but no relevant IP headers were found") := by
  refine ⟨?_, ?_, ?_⟩
  · exact (auto_header_chain [("cf-connecting-ip", asciiBytes "198.51.100.9"),
      ("x-real-ip", asciiBytes "10.0.0.1")] "header" "x-ip" "auto" rfl).1
      (asciiBytes "198.51.100.9") "198.51.100.9" (.v4 198 51 100 9) rfl rfl rfl
  · exact (auto_header_chain [("x-forwarded-for", asciiBytes "9.9.9.9, 10.0.0.1")]
      "query parameter" "ip" " AUTO " rfl).2.2.1
      (asciiBytes "9.9.9.9, 10.0.0.1") "9.9.9.9, 10.0.0.1" (.v4 9 9 9 9)
      rfl rfl rfl rfl rfl
  · exact (auto_header_chain [] "query parameter" "ip" "auto" rfl).2.2.2 rfl rfl rfl

/-- Query lookup on a single-parameter request: the parameter itself. -/
theorem queryGet_singleton_eq (p v : String) : queryGet [(p, v)] p = some v := by
  simp [queryGet, List.find?]

/-- Query lookup on a single-parameter request: any other name. -/
theorem queryGet_singleton_ne (p v m : String) (h : p ≠ m) :
    queryGet [(p, v)] m = none := by
  have hb : (p == m) = false := beq_eq_false_iff_ne.mpr h
  simp [queryGet, List.find?, hb]

/-- On an empty query every search misses. -/
theorem firstQuery_empty (names : List String) : firstQuery names [] = none := by
  induction names with
  | nil => rfl
  | cons m ms ih => simp [firstQuery, List.findSome?_cons, queryGet, List.find?, ih]

/-- The priority search over a single-parameter request whose name is
recognized finds exactly that parameter. -/
theorem firstQuery_singleton (names : List String) (p v : String) (hp : p ∈ names) :
    firstQuery names [(p, v)] = some (p, v) := by
  induction names with
  | nil => cases hp
  | cons m ms ih =>
    rw [firstQuery, List.findSome?_cons]
    by_cases hm : p = m
    · subst hm
      rw [queryGet_singleton_eq]
      rfl
    · rw [queryGet_singleton_ne p v m hm]
      have hp2 : p ∈ ms := by
        rcases List.mem_cons.mp hp with h1 | h2
        · exact absurd h1 hm
        · exact h2
      exact ih hp2

/-- Header lookup on a single-header request misses any name that
differs after lowercasing. -/
theorem headerGet_singleton_ne (n : String) (bs : HeaderBytes) (m : String)
    (h : lowerStr n ≠ lowerStr m) : headerGet [(n, bs)] m = none := by
  have hb : (lowerStr n == lowerStr m) = false := beq_eq_false_iff_ne.mpr h
  simp [headerGet, List.find?, hb]

/-- Header lookup on a single-header request finds it under any name
equal after lowercasing. -/
theorem headerGet_singleton_eq (n : String) (bs : HeaderBytes) (m : String)
    (h : lowerStr n = lowerStr m) : headerGet [(n, bs)] m = some bs := by
  simp [headerGet, List.find?, h]

/-- The priority search over a single-header request whose lowercased
name is in the recognized (already-lowercase) list finds it under the
recognized name. -/
theorem firstHeader_singleton (names : List String) (n : String) (bs : HeaderBytes)
    (hlow : ∀ m ∈ names, lowerStr m = m) (hn : lowerStr n ∈ names) :
    firstHeader names [(n, bs)] = some (lowerStr n, bs) := by
  induction names with
  | nil => cases hn
  | cons m ms ih =>
    rw [firstHeader, List.findSome?_cons]
    by_cases hm : lowerStr n = m
    · have hget : headerGet [(n, bs)] m = some bs := by
        apply headerGet_singleton_eq
        rw [hlow m (List.mem_cons_self m ms), hm]
      rw [hget, hm]
      rfl
    · have hget : headerGet [(n, bs)] m = none := by
        apply headerGet_singleton_ne
        rw [hlow m (List.mem_cons_self m ms)]
        exact hm
      rw [hget]
      have hn2 : lowerStr n ∈ ms := by
        rcases List.mem_cons.mp hn with h1 | h2
        · exact absurd h1 hm
        · exact h2
      exact ih (fun m2 hm2 => hlow m2 (List.mem_cons_of_mem m hm2)) hn2

/-- Success of `header_str` transfers to any reporting name. -/
theorem headerStr_ok_name_change (n m : String) (bs : HeaderBytes) (s : String)
    (h : headerStr n bs = .ok s) : headerStr m bs = .ok s :=
  (headerStr_ok_iff m bs s).mpr ((headerStr_ok_iff n bs s).mp h)

/-- C6 (amended): for every recognized variant actually listed in the
source — all five casing styles of each logical query-parameter name
except `my-ip`, whose kebab-case query variant is absent from
`IP_QUERY_PARAMS` — and every recognized header variant (the listed
names, matched ASCII case-insensitively), presenting a given value under
any single one of those variants makes extraction succeed with the same
result. -/
theorem casing_variants_amended (v w : String) (r : IpVariant) (hn : String)
    (Hip : parseIpVariant [] "query parameter" "ip" v = .ok r)
    (Hhn : hostnameOk w = some hn) :
    (∀ p ∈ IP_QUERY_PARAMS, ipVariantFromRequestParts [(p, v)] [] = .ok r) ∧
    (∀ (n : String) (bs : HeaderBytes), lowerStr n ∈ IP_HEADERS →
      headerStr n bs = .ok v → ipVariantFromRequestParts [] [(n, bs)] = .ok r) ∧
    (∀ p ∈ HOSTNAME_QUERY_PARAMS, hostnameFromRequestParts [(p, w)] [] = .ok hn) ∧
    (∀ (n : String) (bs : HeaderBytes), lowerStr n ∈ HOSTNAME_HEADERS →
      headerStr n bs = .ok w → hostnameFromRequestParts [] [(n, bs)] = .ok hn) := by
  refine ⟨?_, ?_, ?_, ?_⟩
  · intro p hp
    have hfq := firstQuery_singleton IP_QUERY_PARAMS p v hp
    simp only [ipVariantFromRequestParts, hfq]
    exact parseIpVariant_ok_irrel [] "query parameter" "ip" "query parameter" p v r Hip
  · intro n bs hn2 hstr
    have hfh := firstHeader_singleton IP_HEADERS n bs (by decide) hn2
    have hstr2 := headerStr_ok_name_change n (lowerStr n) bs v hstr
    have hne1 : lowerStr n ≠ "cf-connecting-ip" := fun h =>
      (by decide : ("cf-connecting-ip" : String) ∉ IP_HEADERS) (h ▸ hn2)
    have hne2 : lowerStr n ≠ "x-real-ip" := fun h =>
      (by decide : ("x-real-ip" : String) ∉ IP_HEADERS) (h ▸ hn2)
    have hne3 : lowerStr n ≠ "x-forwarded-for" := fun h =>
      (by decide : ("x-forwarded-for" : String) ∉ IP_HEADERS) (h ▸ hn2)
    have hagree := parseIpVariant_headers_agree [] [(n, bs)] "header" (lowerStr n) v
      (headerGet_singleton_ne n bs "cf-connecting-ip"
        (by rw [show lowerStr "cf-connecting-ip" = "cf-connecting-ip" from rfl]; exact hne1))
      (headerGet_singleton_ne n bs "x-real-ip"
        (by rw [show lowerStr "x-real-ip" = "x-real-ip" from rfl]; exact hne2))
      (headerGet_singleton_ne n bs "x-forwarded-for"
        (by rw [show lowerStr "x-forwarded-for" = "x-forwarded-for" from rfl]; exact hne3))
    have hirrel := parseIpVariant_ok_irrel [] "query parameter" "ip" "header"
      (lowerStr n) v r Hip
    simp only [ipVariantFromRequestParts, firstQuery_empty, hfh, hstr2, Except.bind]
    rw [hagree, hirrel]
  · intro p hp
    have hfq := firstQuery_singleton HOSTNAME_QUERY_PARAMS p w hp
    simp only [hostnameFromRequestParts, hfq]
    exact (parseHostname_ok_iff "query parameter" p w hn).mpr Hhn
  · intro n bs hn2 hstr
    have hfh := firstHeader_singleton HOSTNAME_HEADERS n bs (by decide) hn2
    have hstr2 := headerStr_ok_name_change n (lowerStr n) bs w hstr
    simp only [hostnameFromRequestParts, firstQuery_empty, hfh, hstr2, Except.bind]
    exact (parseHostname_ok_iff "header" (lowerStr n) w hn).mpr Hhn

/-- C6 witness: the address `1.2.3.4` extracts identically through the
snake_case query variant, the PascalCase query variant, and a mixed-case
kebab header variant; the hostname `example.com` extracts identically
through the camelCase query variant and a header variant. -/
theorem casing_variants_amended_witness :
    ipVariantFromRequestParts [("my_ip", "1.2.3.4")] [] = .ok (.ip (.v4 1 2 3 4)) ∧
    ipVariantFromRequestParts [("TargetIp", "1.2.3.4")] [] = .ok (.ip (.v4 1 2 3 4)) ∧
    ipVariantFromRequestParts [] [("X-My-Ip", asciiBytes "1.2.3.4")] =
      .ok (.ip (.v4 1 2 3 4)) ∧
    hostnameFromRequestParts [("targetHostname", "example.com")] [] = .ok "example.com" ∧
    hostnameFromRequestParts [] [("X-Target-Hostname", asciiBytes "example.com")] =
      .ok "example.com" := by
  have h := casing_variants_amended "1.2.3.4" "example.com" (.ip (.v4 1 2 3 4))
    "example.com" rfl rfl
  refine ⟨?_, ?_, ?_, ?_, ?_⟩
  · exact h.1 "my_ip" (by decide)
  · exact h.1 "TargetIp" (by decide)
  · exact h.2.1 "X-My-Ip" (asciiBytes "1.2.3.4") (by decide) rfl
  · exact h.2.2.1 "targetHostname" (by decide)
  · exact h.2.2.2 "X-Target-Hostname" (asciiBytes "example.com") (by decide) rfl

/-- C6 counterexample: the claim includes the kebab-case variant of the
logical name `my-ip` among the recognized query parameters, but
`IP_QUERY_PARAMS` lists no `my-ip` entry: presenting a valid address
under the single query parameter `my-ip` makes extraction fail with the
not-found 400 error, while the snake_case variant of the same logical
name succeeds with that address. -/
theorem casing_variants_counterexample :
    ipVariantFromRequestParts [("my-ip", "1.2.3.4")] [] =
      .error (400, "no IP address found in query parameters or headers") ∧
    stdParseIp "1.2.3.4" = some (.v4 1 2 3 4) ∧
    ipVariantFromRequestParts [("my_ip", "1.2.3.4")] [] = .ok (.ip (.v4 1 2 3 4)) :=
  ⟨rfl, rfl, rfl⟩

/-- `split_once` misses exactly when the separator does not occur. -/
theorem splitOnce_eq_none_iff (sep : Char) (l : List Char) :
    splitOnce sep l = none ↔ sep ∉ l := by
  induction l with
  | nil => simp [splitOnce]
  | cons c cs ih =>
    rw [splitOnce]
    by_cases hc : c = sep
    · subst hc; simp
    · simp [hc, Ne.symm hc, ih]

/-- `split_once` splits at the first occurrence of the separator. -/
theorem splitOnce_first (sep : Char) (l u r : List Char)
    (h : splitOnce sep l = some (u, r)) : l = u ++ sep :: r ∧ sep ∉ u := by
  induction l generalizing u r with
  | nil => simp [splitOnce] at h
  | cons c cs ih =>
    rw [splitOnce] at h
    by_cases hc : c = sep
    · subst hc
      rw [if_pos rfl] at h
      injection h with h3
      injection h3 with hu hr
      subst hu; subst hr
      simp
    · rw [if_neg hc] at h
      cases hrec : splitOnce sep cs with
      | none => rw [hrec] at h; simp at h
      | some p =>
        obtain ⟨u2, r2⟩ := p
        rw [hrec] at h
        simp only [Option.map, Option.some.injEq, Prod.mk.injEq] at h
        obtain ⟨hu, hr⟩ := h
        subst hr
        subst hu
        obtain ⟨hsplit, hnot⟩ := ih u2 r2 hrec
        constructor
        · simp [hsplit]
        · intro hmem
          rcases List.mem_cons.mp hmem with h1 | h2
          · exact hc h1.symm
          · exact hnot h2

/-- C9 (amended): Basic-Auth extraction succeeds with the (username,
password) pair exactly when the `Authorization` header is present,
starts with `Basic `, its remainder is valid base64 decoding to valid
UTF-8 text containing at least one `:` — the text is split at its first
`:` into two strings receiving no further validation; each failing step
yields 401 with its specific reason (missing header, wrong scheme, bad
base64, bad UTF-8, missing separator). -/
theorem basic_auth_amended (hs : Headers) :
    (headerGet hs "authorization" = none →
      basicAuthFromRequestParts hs = .error (401, "missing Authorization header")) ∧
    (∀ bytes, headerGet hs "authorization" = some bytes →
      (dropBytes (asciiBytes "Basic ") bytes = none →
        basicAuthFromRequestParts hs =
          .error (401, "invalid Authorization header: must start with \x27Basic \x27")) ∧
      (∀ contents, dropBytes (asciiBytes "Basic ") bytes = some contents →
        (b64Decode contents = none →
          basicAuthFromRequestParts hs =
            .error (401, "invalid Authorization header: encountered invalid base64")) ∧
        (∀ decoded, b64Decode contents = some decoded →
          (utf8Decode decoded = none →
            basicAuthFromRequestParts hs =
              .error (401,
                "invalid Authorization header: invalid UTF-8 after decoding base64")) ∧
          (∀ text, utf8Decode decoded = some text →
            ((':' ∉ text) →
              basicAuthFromRequestParts hs =
                .error (401,
                  "invalid Authorization header: missing \x27:\x27 separator after decoding base64")) ∧
            (∀ u p, splitOnce ':' text = some (u, p) →
              text = u ++ ':' :: p ∧ ':' ∉ u ∧
              basicAuthFromRequestParts hs = .ok (String.mk u, String.mk p)))))) := by
  constructor
  · intro hh
    simp only [basicAuthFromRequestParts, hh]
  · intro bytes hh
    constructor
    · intro hdrop
      simp only [basicAuthFromRequestParts, hh, hdrop]
    · intro contents hdrop
      constructor
      · intro hb64
        simp only [basicAuthFromRequestParts, hh, hdrop, hb64]
      · intro decoded hb64
        constructor
        · intro hutf
          simp only [basicAuthFromRequestParts, hh, hdrop, hb64, hutf]
        · intro text hutf
          constructor
          · intro hsep
            have hnone : splitOnce ':' text = none := (splitOnce_eq_none_iff ':' text).mpr hsep
            simp only [basicAuthFromRequestParts, hh, hdrop, hb64, hutf, hnone]
          · intro u p hsplit
            obtain ⟨heq, hnot⟩ := splitOnce_first ':' text u p hsplit
            refine ⟨heq, hnot, ?_⟩
            simp only [basicAuthFromRequestParts, hh, hdrop, hb64, hutf, hsplit]

/-- C9 witness: the concrete header `Basic dXNlcjpwYXNz` decodes to the
pair (user, pass); a missing header and a Bearer-scheme header fail with
their specific 401 reasons. -/
theorem basic_auth_amended_witness :
    basicAuthFromRequestParts [("authorization", asciiBytes "Basic dXNlcjpwYXNz")] =
      .ok ("user", "pass") ∧
    basicAuthFromRequestParts [] = .error (401, "missing Authorization header") ∧
    basicAuthFromRequestParts [("authorization", asciiBytes "Bearer abc")] =
      .error (401, "invalid Authorization header: must start with \x27Basic \x27") := by
  refine ⟨?_, ?_, ?_⟩
  · exact (((((basic_auth_amended
      [("authorization", asciiBytes "Basic dXNlcjpwYXNz")]).2
      (asciiBytes "Basic dXNlcjpwYXNz") rfl).2
      (asciiBytes "dXNlcjpwYXNz") rfl).2
      (asciiBytes "user:pass") rfl).2
      ("user:pass".data) rfl).2 ("user".data) ("pass".data) rfl |>.2.2
  · exact (basic_auth_amended []).1 rfl
  · exact ((basic_auth_amended [("authorization", asciiBytes "Bearer abc")]).2
      (asciiBytes "Bearer abc") rfl).1 rfl

/-- C9 counterexample: the claim requires the decoded text to contain
exactly one `:` for success, but the code splits at the first `:` and
accepts any further ones into the password: `Basic YTpiOmM=` decodes to
`a:b:c`, whose colon count is 2, yet extraction succeeds with the pair
(a, b:c). -/
theorem basic_auth_counterexample :
    dropBytes (asciiBytes "Basic ") (asciiBytes "Basic YTpiOmM=") =
      some (asciiBytes "YTpiOmM=") ∧
    b64Decode (asciiBytes "YTpiOmM=") = some (asciiBytes "a:b:c") ∧
    utf8Decode (asciiBytes "a:b:c") = some ("a:b:c".data) ∧
    ("a:b:c".data.count ':') = 2 ∧
    basicAuthFromRequestParts [("authorization", asciiBytes "Basic YTpiOmM=")] =
      .ok ("a", "b:c") := by
  refine ⟨rfl, by decide, by decide, by decide, rfl⟩

end Rudder
